import Mathlib

/-!
Verification of the live-feed synchronization module of the `caradsfront`
front-end, as a shallow embedding in Lean.

The repository has two page variants:
* `src/unnamed/part_000` — the primary variant, with a diff-and-append
  poll-tick update, a push handler keyed by server id, and `handleViewClick`;
* `src/src/app/page.tsx` — an older variant whose poll tick rebuilds the
  whole buffer from the fetched list.

Pure state-update logic (the `setTelegramMsgs` updaters, the transport
start/stop logic, `handleViewClick`) is embedded as Lean functions; the
asynchronous environment (timer ticks, fetch resolutions, SignalR events)
is modelled as explicit event sequences folded over those functions.
-/

namespace CarAds

/-- `TelegramMsg` (part_000 lines 54-59): the feed-buffer element type. -/
structure TelegramMsg where
  id : String
  text : String
  senderName : String
  sentAt : String
deriving DecidableEq, Repr

/-- `Ad` (part_000 lines 29-45).  The `type`/`gearbox` fields are
`number | string` unions in the source, modelled as a sum; optional fields
become `Option`. -/
structure Ad where
  id : Nat
  userId : Nat
  type : Sum Nat String
  title : String
  year : Nat
  color : String
  mileageKm : Nat
  price : Nat
  gearbox : Sum Nat String
  createdAt : String
  insuranceMonths : Option Nat
  chassisNumber : Option String
  contactPhone : Option String
  description : Option String
  viewCount : Nat
deriving DecidableEq, Repr

/-- A raw message from `GET /api/telegram/messages` as consumed by the poll
tick: `{id?, text, senderName, sentAt}`.  `id` is optional and may be the
empty string (falsy in JS, part_000 line 877 uses `m.id || ...`). -/
structure RawPollMsg where
  id : Option String
  text : String
  senderName : String
  sentAt : String
deriving DecidableEq, Repr

/-- JS `String(m.text).slice(0, 10)`: the first 10 characters. -/
def slice10 (s : String) : String := ⟨s.toList.take 10⟩

/-- The id-less fallback id of the poll path (part_000 lines 878-881):
the template literal `${m.sentAt}-${m.senderName}-${String(m.text).slice(0,10)}`. -/
def pollFallbackId (m : RawPollMsg) : String :=
  m.sentAt ++ "-" ++ m.senderName ++ "-" ++ slice10 m.text

/-- `String(m.id || fallback)` (part_000 lines 876-883, 886-889): a missing
or empty (falsy) id selects the fallback composite. -/
def pollSynthId (m : RawPollMsg) : String :=
  match m.id with
  | some s => if s = "" then pollFallbackId m else s
  | none => pollFallbackId m

/-- The `.map` step of the poll tick (part_000 lines 885-893): convert a raw
message to a `TelegramMsg`, synthesizing the id. -/
def toPollMsg (m : RawPollMsg) : TelegramMsg :=
  { id := pollSynthId m
    text := m.text
    senderName := m.senderName
    sentAt := m.sentAt }

/-- The buffer capacity: the literal `200` of part_000 lines 897/939. -/
def CAP : Nat := 200

/-- `updated.length > 200 ? updated.slice(-200) : updated`
(part_000 lines 897 and 939): keep the last 200 entries. -/
def trimCap (l : List TelegramMsg) : List TelegramMsg :=
  if l.length > CAP then l.drop (l.length - CAP) else l

/-- The `newMsgs` computation of the poll tick (part_000 lines 871-893):
raw messages whose synthesized id is not already in `prev`, converted in
order. -/
def pollNewMsgs (prev : List TelegramMsg) (list : List RawPollMsg) :
    List TelegramMsg :=
  let existingIds := prev.map (·.id)
  (list.filter (fun m => ¬ existingIds.contains (pollSynthId m))).map toPollMsg

/-- The `setTelegramMsgs` updater of the poll tick (part_000 lines 870-898):
`newMsgs` is `pollNewMsgs prev list`; if it is empty the previous buffer is
returned unchanged, else it is appended and trimmed. -/
def pollTickUpdate (prev : List TelegramMsg) (list : List RawPollMsg) :
    List TelegramMsg :=
  if (pollNewMsgs prev list).length = 0 then prev
  else trimCap (prev ++ pollNewMsgs prev list)

/-- The `setTelegramMsgs` updater of the push handler `onTelegramMessage`
(part_000 lines 936-940): drop on duplicate id, else append and trim. -/
def pushUpdate (prev : List TelegramMsg) (newMsg : TelegramMsg) :
    List TelegramMsg :=
  if prev.any (fun m => m.id = newMsg.id) then prev
  else trimCap (prev ++ [newMsg])

/-- A raw push event payload (part_000 lines 924-929):
`{id?: number, text, senderName, sentAt}`. -/
structure RawPushMsg where
  id : Option Nat
  text : String
  senderName : String
  sentAt : String
deriving DecidableEq, Repr

/-- `String(p.id ?? ` ++ "`${Date.now()}-${Math.random()}`" ++ `)`
(part_000 line 931).  `Date.now()` and `Math.random()` are environment
inputs, passed in as `now` and the already-stringified `rand`. -/
def pushSynthId (now : Nat) (rand : String) (p : RawPushMsg) : String :=
  match p.id with
  | some n => toString n
  | none => toString now ++ "-" ++ rand

/-- The `newMsg` built by `onTelegramMessage` (part_000 lines 930-935). -/
def toPushMsg (now : Nat) (rand : String) (p : RawPushMsg) : TelegramMsg :=
  { id := pushSynthId now rand p
    text := p.text
    senderName := p.senderName
    sentAt := p.sentAt }

/-- One append operation on the feed buffer: either a poll tick resolving
with a fetched list, or a push event delivering one already-converted
message. -/
inductive FeedOp where
  | poll (list : List RawPollMsg)
  | push (msg : TelegramMsg)
deriving DecidableEq, Repr

/-- Apply one append operation to the buffer. -/
def applyOp (buf : List TelegramMsg) : FeedOp → List TelegramMsg
  | .poll list => pollTickUpdate buf list
  | .push msg => pushUpdate buf msg

/-- Run a sequence of append operations from the empty initial buffer
(`useState<TelegramMsg[]>([])`, part_000 line 821). -/
def runOps (ops : List FeedOp) : List TelegramMsg :=
  ops.foldl applyOp []

/-- The messages an operation actually appends (the accepted subset):
`newMsgs` for a poll tick, the singleton or nothing for a push. -/
def acceptedOf (buf : List TelegramMsg) : FeedOp → List TelegramMsg
  | .poll list => pollNewMsgs buf list
  | .push msg => if buf.any (fun m => m.id = msg.id) then [] else [msg]

/-- The concatenation, in order, of everything accepted along a run. -/
def acceptedHistory (buf : List TelegramMsg) : List FeedOp → List TelegramMsg
  | [] => []
  | op :: ops => acceptedOf buf op ++ acceptedHistory (applyOp buf op) ops

/-- A poll batch is well-formed when the ids it would synthesize are
pairwise distinct; push operations carry a single message. -/
def batchOk : FeedOp → Prop
  | .poll list => (list.map pollSynthId).Nodup
  | .push _ => True

instance : DecidablePred batchOk := fun op =>
  match op with
  | .poll list => inferInstanceAs (Decidable ((list.map pollSynthId).Nodup))
  | .push _ => inferInstanceAs (Decidable True)

/-- The id column of a buffer. -/
def bufIds (l : List TelegramMsg) : List String := l.map (·.id)

/-!  Helper lemmas about the buffer operations.  -/

lemma trimCap_eq (l : List TelegramMsg) :
    trimCap l = l.drop (l.length - CAP) := by
  unfold trimCap
  split
  · rfl
  · rw [Nat.sub_eq_zero_of_le (by omega), List.drop_zero]

lemma bufIds_pollNewMsgs (prev : List TelegramMsg) (list : List RawPollMsg) :
    bufIds (pollNewMsgs prev list) =
      (list.filter
        (fun m => ¬ (prev.map (·.id)).contains (pollSynthId m))).map pollSynthId := by
  unfold bufIds pollNewMsgs
  rw [List.map_map]
  rfl

lemma trimCap_ids_sublist (l : List TelegramMsg) :
    List.Sublist (bufIds (trimCap l)) (bufIds l) := by
  rw [trimCap_eq]
  exact (List.drop_sublist _ _).map _

lemma step_nodup (buf : List TelegramMsg) (op : FeedOp)
    (hbuf : (bufIds buf).Nodup) (hop : batchOk op) :
    (bufIds (applyOp buf op)).Nodup := by
  cases op with
  | poll list =>
      show (bufIds (pollTickUpdate buf list)).Nodup
      unfold pollTickUpdate
      split
      · exact hbuf
      · refine (trimCap_ids_sublist _).nodup ?_
        have hids : bufIds (buf ++ pollNewMsgs buf list) =
            bufIds buf ++ bufIds (pollNewMsgs buf list) := by
          simp [bufIds]
        rw [hids, List.nodup_append]
        refine ⟨hbuf, ?_, ?_⟩
        · rw [bufIds_pollNewMsgs]
          exact ((List.filter_sublist _).map _).nodup hop
        · intro a ha hb
          rw [bufIds_pollNewMsgs] at hb
          rcases List.mem_map.1 hb with ⟨m, hm, rfl⟩
          rcases List.mem_filter.1 hm with ⟨_, hmp⟩
          rw [decide_eq_true_eq] at hmp
          rw [List.contains_iff_exists_mem_beq] at hmp
          exact hmp ⟨pollSynthId m, by simpa [bufIds] using ha, by simp⟩
  | push msg =>
      show (bufIds (pushUpdate buf msg)).Nodup
      unfold pushUpdate
      split
      · exact hbuf
      · next hdup =>
        refine (trimCap_ids_sublist _).nodup ?_
        have hids : bufIds (buf ++ [msg]) = bufIds buf ++ [msg.id] := by
          simp [bufIds]
        rw [hids, List.nodup_append]
        refine ⟨hbuf, List.nodup_singleton _, ?_⟩
        intro a ha hb
        rcases List.mem_singleton.1 hb with rfl
        apply hdup
        rcases List.mem_map.1 ha with ⟨m, hm, hid⟩
        exact List.any_eq_true.2 ⟨m, hm, by simp [hid]⟩

lemma step_suffix (buf : List TelegramMsg) (op : FeedOp) :
    applyOp buf op <:+ buf ++ acceptedOf buf op := by
  cases op with
  | poll list =>
      show pollTickUpdate buf list <:+ buf ++ pollNewMsgs buf list
      unfold pollTickUpdate
      split
      · next hlen =>
        rw [List.length_eq_zero.1 hlen, List.append_nil]
      · rw [trimCap_eq]
        exact List.drop_suffix _ _
  | push msg =>
      show pushUpdate buf msg <:+ buf ++ acceptedOf buf (FeedOp.push msg)
      show pushUpdate buf msg <:+
        buf ++ if buf.any (fun m => m.id = msg.id) then [] else [msg]
      unfold pushUpdate
      split
      · rw [List.append_nil]
      · rw [trimCap_eq]
        exact List.drop_suffix _ _

lemma suffix_append_same {l l' t : List TelegramMsg} (h : l <:+ l') :
    l ++ t <:+ l' ++ t := by
  rcases h with ⟨u, rfl⟩
  exact ⟨u, (List.append_assoc u l t).symm⟩

lemma foldl_nodup (ops : List FeedOp) :
    ∀ buf, (bufIds buf).Nodup → (∀ op ∈ ops, batchOk op) →
      (bufIds (ops.foldl applyOp buf)).Nodup := by
  induction ops with
  | nil => intro buf hbuf _; exact hbuf
  | cons op ops ih =>
      intro buf hbuf hops
      rw [List.foldl_cons]
      exact ih _ (step_nodup buf op hbuf (hops op (by simp)))
        (fun o ho => hops o (by simp [ho]))

lemma foldl_suffix (ops : List FeedOp) :
    ∀ buf, ops.foldl applyOp buf <:+ buf ++ acceptedHistory buf ops := by
  induction ops with
  | nil =>
      intro buf
      simp only [List.foldl_nil, acceptedHistory, List.append_nil]
      exact List.suffix_refl buf
  | cons op ops ih =>
      intro buf
      simp only [List.foldl_cons, acceptedHistory, ← List.append_assoc]
      exact (ih (applyOp buf op)).trans
        (suffix_append_same (step_suffix buf op))

lemma lastN_append_absorb (a b : List TelegramMsg) :
    ((a.drop (a.length - CAP)) ++ b).drop
        (((a.drop (a.length - CAP)) ++ b).length - CAP) =
      (a ++ b).drop ((a ++ b).length - CAP) := by
  by_cases h : a.length ≤ CAP
  · rw [Nat.sub_eq_zero_of_le h, List.drop_zero]
  · push_neg at h
    have hlen : (a.drop (a.length - CAP)).length = CAP := by
      rw [List.length_drop]
      omega
    rw [List.length_append, List.length_append, hlen]
    have h1 : CAP + b.length - CAP = b.length := by omega
    have h2 : a.length + b.length - CAP = (a.length - CAP) + b.length := by
      omega
    rw [h1, h2, ← List.drop_drop b.length (a.length - CAP) (a ++ b)]
    refine congrArg (List.drop b.length) ?_
    rw [List.drop_append_of_le_length (by omega)]

lemma foldl_push_lastN (msgs : List TelegramMsg) :
    ∀ buf, buf.length ≤ CAP → ((buf ++ msgs).map (·.id)).Nodup →
      (msgs.map FeedOp.push).foldl applyOp buf =
        (buf ++ msgs).drop ((buf ++ msgs).length - CAP) := by
  induction msgs with
  | nil =>
      intro buf hlen _
      simp only [List.map_nil, List.foldl_nil, List.append_nil]
      rw [Nat.sub_eq_zero_of_le hlen, List.drop_zero]
  | cons m rest ih =>
      intro buf hlen hnd
      simp only [List.map_cons, List.foldl_cons]
      have hnotin : ¬ ((buf.any fun x => decide (x.id = m.id)) = true) := by
        intro hany
        rcases List.any_eq_true.1 hany with ⟨x, hx, hxe⟩
        rw [decide_eq_true_eq] at hxe
        rw [List.map_append, List.nodup_append] at hnd
        exact hnd.2.2 (List.mem_map.2 ⟨x, hx, rfl⟩)
          (by rw [hxe]; exact List.mem_map.2 ⟨m, by simp, rfl⟩)
      have hstep : applyOp buf (FeedOp.push m) =
          (buf ++ [m]).drop ((buf ++ [m]).length - CAP) := by
        show pushUpdate buf m = _
        unfold pushUpdate
        rw [if_neg hnotin, trimCap_eq]
      rw [hstep]
      have hlen2 : ((buf ++ [m]).drop ((buf ++ [m]).length - CAP)).length ≤
          CAP := by
        rw [List.length_drop]
        omega
      have hnd2 : ((((buf ++ [m]).drop ((buf ++ [m]).length - CAP)) ++
          rest).map (·.id)).Nodup := by
        refine (((List.drop_sublist _ _).append_right rest).map _).nodup ?_
        have : (buf ++ [m]) ++ rest = buf ++ m :: rest := by simp
        rw [this]
        exact hnd
      rw [ih _ hlen2 hnd2, lastN_append_absorb (buf ++ [m]) rest]
      have : (buf ++ [m]) ++ rest = buf ++ m :: rest := by simp
      rw [this]

/-- A single poll tick with a fetched list whose entries repeat an id:
both copies pass the diff filter (it checks only the prior buffer), so the
buffer ends with a duplicated id. -/
def c1RawDup : RawPollMsg :=
  { id := none, text := "hello world", senderName := "alice", sentAt := "t1" }

/-- The state touched by `handleViewClick` (part_000 lines 965-984): the
ads list (`useState<Ad[]>`) and the per-entity flash counters
(`flashCounts : Record<number, number>`, line 814), modelled as a map with
absent keys `none`. -/
structure ViewState where
  ads : List Ad
  flashCounts : Nat → Option Nat

/-- The synchronous part of `handleViewClick`, executed before the POST
round-trip completes (part_000 line 967):
`setFlashCounts((prev) => ({ ...prev, [ad.id]: (prev[ad.id] ?? 0) + 1 }))`. -/
def handleViewClickStart (s : ViewState) (ad : Ad) : ViewState :=
  { s with
    flashCounts := fun k =>
      if k = ad.id then some ((s.flashCounts ad.id).getD 0 + 1)
      else s.flashCounts k }

/-- The outcome of `POST /api/ads/{id}/view`: success with the optional
`viewCount` of the response body (`res.data?.viewCount`), or a thrown
error. -/
inductive PostViewResult where
  | ok (viewCount : Option Nat)
  | failed
deriving DecidableEq, Repr

/-- The continuation of `handleViewClick` after the POST settles (part_000
lines 969-979): on success, `newCount = res.data?.viewCount ?? Number(ad.viewCount) + 1`
and `setAds` replaces the clicked ad's count by `newCount`; on failure the
empty `catch` swallows the error and changes nothing. -/
def handleViewClickResolve (s : ViewState) (ad : Ad) :
    PostViewResult → ViewState
  | .ok vc =>
      { s with
        ads := s.ads.map (fun x =>
          if x.id = ad.id then { x with viewCount := vc.getD (ad.viewCount + 1) }
          else x) }
  | .failed => s

/-- What a listener (the Renderer) reads for an entity: the view count of
the ad with the given id in the current ads list. -/
def adViewCount (s : ViewState) (adId : Nat) : Option Nat :=
  (s.ads.find? (fun x => x.id = adId)).map (·.viewCount)

/-- The flash-counter read `flashCounts[ad.id] ?? 0` (part_000 line 1101). -/
def flashRead (s : ViewState) (adId : Nat) : Nat :=
  (s.flashCounts adId).getD 0

/-- The state of the feed effect (part_000 lines 858-963): the message
buffer plus the two cleanup-relevant resources, the polling-timer handle
and the push subscription. -/
structure ModuleState where
  telegramMsgs : List TelegramMsg
  pollTimer : Bool
  subscribed : Bool
deriving DecidableEq, Repr

/-- The effect cleanup (part_000 lines 958-961): `unsub?.()` detaches the
push listener and `stopTelegramPolling()` clears the interval.  The buffer
is not touched and no liveness flag exists. -/
def stopModule (s : ModuleState) : ModuleState :=
  { s with pollTimer := false, subscribed := false }

/-- Resolution of an in-flight poll fetch (part_000 lines 866-898): the
code that runs when `api.get` resolves calls `setTelegramMsgs` with the
diff-and-append updater unconditionally; nothing consults the timer handle
or any liveness flag first. -/
def pollFetchResolve (s : ModuleState) (list : List RawPollMsg) :
    ModuleState :=
  { s with telegramMsgs := pollTickUpdate s.telegramMsgs list }

/-- The failing scenario for stop/teardown: polling is active with an empty
buffer, a fetch is in flight, the effect cleanup runs, then the fetch
resolves. -/
def c4Start : ModuleState :=
  { telegramMsgs := [], pollTimer := true, subscribed := false }

/-- The message carried by the late-resolving fetch. -/
def c4Raw : RawPollMsg :=
  { id := some "m1", text := "new", senderName := "bob", sentAt := "t2" }

/-- Transport-relevant events of the feed effect. -/
inductive TransportEvent where
  | connectOk
  | connectFailed
  | connClosed
  | pollTick
  | cleanup
deriving DecidableEq, Repr

/-- The transport state: whether a polling-timer handle exists and whether
the push connection is live. -/
structure TransportState where
  pollTimer : Bool
  connected : Bool
deriving DecidableEq, Repr

/-- `startTelegramPolling` on the transport state (part_000 lines 862-864):
a no-op when a timer handle already exists, else it records one. -/
def startTelegramPolling (s : TransportState) : TransportState :=
  if s.pollTimer then s else { s with pollTimer := true }

/-- `stopTelegramPolling` on the transport state (part_000 lines 907-911). -/
def stopTelegramPolling (s : TransportState) : TransportState :=
  { s with pollTimer := false }

/-- One transport step, from the handlers the effect installs:
`connectOk` is `await startSignalR()` resolving (lines 915-917, stops
polling); `connectFailed` is the catch branch (lines 952-955, starts
polling); `connClosed` is `conn.onclose` firing (lines 919-922, starts
polling immediately); `pollTick` leaves the transport state alone;
`cleanup` is the effect teardown (lines 958-961). -/
def transportStep (s : TransportState) : TransportEvent → TransportState
  | .connectOk => { stopTelegramPolling s with connected := true }
  | .connectFailed => startTelegramPolling s
  | .connClosed => { startTelegramPolling s with connected := false }
  | .pollTick => s
  | .cleanup => stopTelegramPolling s

/-- Timer bookkeeping for idempotent start: `pollTimer` is the closure
variable holding the interval handle (truthy or null) and `liveTimers`
counts intervals created by `setInterval` and not yet cleared. -/
structure TimerState where
  pollTimer : Bool
  liveTimers : Nat
deriving DecidableEq, Repr

/-- `startTelegramPolling` with timer accounting (part_000 lines 862-865):
`if (pollTimer) return;` then `pollTimer = setInterval(...)`. -/
def startPollingTimers (s : TimerState) : TimerState :=
  if s.pollTimer then s
  else { pollTimer := true, liveTimers := s.liveTimers + 1 }

/-- `stopTelegramPolling` with timer accounting (part_000 lines 907-911):
`if (pollTimer) clearInterval(pollTimer); pollTimer = null;`. -/
def stopPollingTimers (s : TimerState) : TimerState :=
  if s.pollTimer then { pollTimer := false, liveTimers := s.liveTimers - 1 }
  else { s with pollTimer := false }

/-- The operations that touch the timer. -/
inductive TimerOp where
  | start
  | stop
deriving DecidableEq, Repr

def timerStep (s : TimerState) : TimerOp → TimerState
  | .start => startPollingTimers s
  | .stop => stopPollingTimers s

/-- The timer invariant: the handle variable tracks exactly one live
interval when set and none when null. -/
def timerInv (s : TimerState) : Prop :=
  s.liveTimers = if s.pollTimer then 1 else 0

/-- The poll-tick updater of the `src/src/app/page.tsx` variant (lines
741-758): the buffer is rebuilt from the fetched list alone (the updater
`setTelegramMsgs(() => ...)` ignores the previous value), each message gets
the id `${idx}-${m.sentAt}-${m.senderName}-${m.text}` from its list index,
and `mapped.slice(-200)` keeps the last 200.  `toPageMsg` is the per-entry
mapping (page.tsx lines 747-752), taking the `(idx, m)` pair. -/
def toPageMsg (p : Nat × RawPollMsg) : TelegramMsg :=
  { id := toString p.1 ++ "-" ++ p.2.sentAt ++ "-" ++ p.2.senderName ++
      "-" ++ p.2.text
    text := p.2.text
    senderName := p.2.senderName
    sentAt := p.2.sentAt }

def pollTickUpdatePage (_prev : List TelegramMsg) (list : List RawPollMsg) :
    List TelegramMsg :=
  (list.enum.map toPageMsg).drop ((list.enum.map toPageMsg).length - CAP)

/-- The content of a message apart from its identity. -/
def msgContent (m : TelegramMsg) : String × String × String :=
  (m.text, m.senderName, m.sentAt)

/-- A push payload with no server id. -/
def c6PushNoId : RawPushMsg :=
  { id := none, text := "hello", senderName := "alice", sentAt := "t1" }

/-- A buffer with one message, for the C10 counterexample. -/
def c10Prev : List TelegramMsg :=
  [{ id := "x", text := "a", senderName := "b", sentAt := "c" }]

/-- A concrete ad with view count 5. -/
def c3Ad : Ad :=
  { id := 1, userId := 2, type := Sum.inl 1, title := "t", year := 1400
    color := "c", mileageKm := 0, price := 0, gearbox := Sum.inl 1
    createdAt := "d", insuranceMonths := none, chassisNumber := none
    contactPhone := none, description := none, viewCount := 5 }

/-- A view state holding only `c3Ad`, with no flash counters yet. -/
def c3State : ViewState :=
  { ads := [c3Ad], flashCounts := fun _ => none }

/-!  Helper lemmas for the transport, timer and page-variant proofs.  -/

lemma polling_persists (evs : List TransportEvent) :
    ∀ t : TransportState, t.pollTimer = true →
      (∀ e ∈ evs, e ≠ TransportEvent.connectOk ∧ e ≠ TransportEvent.cleanup) →
      (evs.foldl transportStep t).pollTimer = true := by
  induction evs with
  | nil =>
      intro t ht _
      simpa using ht
  | cons e rest ih =>
      intro t ht hevs
      rw [List.foldl_cons]
      refine ih _ ?_ (fun x hx => hevs x (List.mem_cons_of_mem _ hx))
      rcases hevs e (List.mem_cons_self _ _) with ⟨h1, h2⟩
      cases e with
      | connectOk => exact absurd rfl h1
      | cleanup => exact absurd rfl h2
      | connectFailed => simp [transportStep, startTelegramPolling, ht]
      | connClosed => simp [transportStep, startTelegramPolling, ht]
      | pollTick => simpa [transportStep] using ht

lemma timerInv_step (s : TimerState) (op : TimerOp) (h : timerInv s) :
    timerInv (timerStep s op) := by
  cases op with
  | start =>
      show timerInv (startPollingTimers s)
      unfold timerInv startPollingTimers at *
      by_cases hp : s.pollTimer = true <;> simp [hp] at h ⊢ <;> omega
  | stop =>
      show timerInv (stopPollingTimers s)
      unfold timerInv stopPollingTimers at *
      by_cases hp : s.pollTimer = true <;> simp [hp] at h ⊢ <;> omega

lemma pushUpdate_fresh (prev : List TelegramMsg) (m : TelegramMsg)
    (h : m.id ∉ prev.map (·.id)) :
    pushUpdate prev m = prev.drop ((prev.length + 1) - CAP) ++ [m] := by
  have hany : ¬ ((prev.any fun x => decide (x.id = m.id)) = true) := by
    intro hx
    rcases List.any_eq_true.1 hx with ⟨x, hxm, hxe⟩
    rw [decide_eq_true_eq] at hxe
    exact h (List.mem_map.2 ⟨x, hxm, hxe⟩)
  unfold pushUpdate
  rw [if_neg hany, trimCap_eq]
  have hl : (prev ++ [m]).length = prev.length + 1 := by simp
  rw [hl, List.drop_append_of_le_length (by
    have hCAP : CAP = 200 := rfl
    omega)]

lemma pollTickUpdate_nil (list : List RawPollMsg) :
    pollTickUpdate [] list = (list.map toPollMsg).drop (list.length - CAP) := by
  have hnew : pollNewMsgs [] list = list.map toPollMsg := by
    show (list.filter (fun m =>
        ¬ (([] : List TelegramMsg).map (·.id)).contains (pollSynthId m))).map
      toPollMsg = list.map toPollMsg
    have hfil : (list.filter (fun m =>
        ¬ (([] : List TelegramMsg).map (·.id)).contains (pollSynthId m))) =
          list := by
      rw [List.filter_eq_self]
      intro m _
      simp
    rw [hfil]
  unfold pollTickUpdate
  split
  · next hlen =>
    rw [hnew, List.length_map, List.length_eq_zero] at hlen
    rw [hlen]
    rfl
  · rw [hnew, List.nil_append, trimCap_eq, List.length_map]

lemma enum_map_snd_comp {α β : Type} (l : List α) (f : α → β) :
    l.enum.map (fun p => f p.2) = l.map f := by
  have h := congrArg (List.map f) (List.enum_map_snd l)
  rw [List.map_map] at h
  exact h

end CarAds

/-- Claim C2: after every append operation the buffer length is at most the
capacity 200, and a run of unique push appends keeps exactly the last 200
messages by insertion order (so for 250 unique messages, the last 200
remain and the first 50 are evicted from the front). -/
theorem C2_capacity_fifo :
    (∀ (buf : List CarAds.TelegramMsg) (op : CarAds.FeedOp),
        buf.length ≤ CarAds.CAP →
        (CarAds.applyOp buf op).length ≤ CarAds.CAP) ∧
    (∀ msgs : List CarAds.TelegramMsg, ((msgs.map (·.id)).Nodup) →
        CarAds.runOps (msgs.map CarAds.FeedOp.push) =
          msgs.drop (msgs.length - CarAds.CAP)) := by
  constructor
  · intro buf op hlen
    cases op with
    | poll list =>
        show (CarAds.pollTickUpdate buf list).length ≤ CarAds.CAP
        unfold CarAds.pollTickUpdate
        split
        · exact hlen
        · rw [CarAds.trimCap_eq, List.length_drop]
          omega
    | push msg =>
        show (CarAds.pushUpdate buf msg).length ≤ CarAds.CAP
        unfold CarAds.pushUpdate
        split
        · exact hlen
        · rw [CarAds.trimCap_eq, List.length_drop]
          omega
  · intro msgs hnd
    have := CarAds.foldl_push_lastN msgs [] (by simp [CarAds.CAP])
      (by simpa using hnd)
    simpa [CarAds.runOps] using this

/-- Witness for C2 at concrete inputs. -/
theorem C2_capacity_fifo_witness :
    (([] : List CarAds.TelegramMsg).length ≤ CarAds.CAP ∧
      (CarAds.applyOp [] (CarAds.FeedOp.push ⟨"a", "x", "s", "t"⟩)).length ≤
        CarAds.CAP) ∧
    (([CarAds.TelegramMsg.mk "a" "x" "s" "t",
        CarAds.TelegramMsg.mk "b" "y" "s" "t"].map (·.id)).Nodup ∧
      CarAds.runOps ([CarAds.TelegramMsg.mk "a" "x" "s" "t",
          CarAds.TelegramMsg.mk "b" "y" "s" "t"].map CarAds.FeedOp.push) =
        [CarAds.TelegramMsg.mk "a" "x" "s" "t",
          CarAds.TelegramMsg.mk "b" "y" "s" "t"].drop
          ([CarAds.TelegramMsg.mk "a" "x" "s" "t",
            CarAds.TelegramMsg.mk "b" "y" "s" "t"].length - CarAds.CAP)) :=
  ⟨⟨by decide, C2_capacity_fifo.1 [] _ (by decide)⟩,
    ⟨by decide, C2_capacity_fifo.2 _ (by decide)⟩⟩

/-- Claim C1, counterexample: the claim as stated fails on the code.  A poll
tick whose fetched list contains the same id-less raw message twice appends
both copies (the filter of part_000 lines 872-884 checks candidates only
against ids already in the buffer, not against each other), so after the
append the buffer holds the same id twice. -/
theorem C1_duplicate_batch_counterexample :
    ¬ (CarAds.bufIds
        (CarAds.runOps [.poll [CarAds.c1RawDup, CarAds.c1RawDup]])).Nodup := by
  decide

/-- Claim C1, amended: for every sequence of poll-tick and push append
operations starting from the empty buffer, provided each single poll batch
synthesizes pairwise-distinct ids, the buffer contains each id at most once
(a candidate whose id is already present is dropped), and the buffer is a
contiguous suffix of the in-order concatenation of all accepted candidates,
so retained messages appear in first-seen order. -/
theorem C1_dedup_first_seen_order (ops : List CarAds.FeedOp)
    (h : ∀ op ∈ ops, CarAds.batchOk op) :
    (CarAds.bufIds (CarAds.runOps ops)).Nodup ∧
      CarAds.runOps ops <:+ CarAds.acceptedHistory [] ops := by
  constructor
  · exact CarAds.foldl_nodup ops [] (by simp [CarAds.bufIds]) h
  · have := CarAds.foldl_suffix ops []
    rwa [List.nil_append] at this

/-- Witness for C1: a concrete well-formed operation sequence. -/
theorem C1_dedup_witness :
    (∀ op ∈ [CarAds.FeedOp.push ⟨"a", "x", "s", "t"⟩,
        CarAds.FeedOp.poll [⟨some "b", "y", "s", "t"⟩]], CarAds.batchOk op) ∧
    (CarAds.bufIds (CarAds.runOps [CarAds.FeedOp.push ⟨"a", "x", "s", "t"⟩,
        CarAds.FeedOp.poll [⟨some "b", "y", "s", "t"⟩]])).Nodup ∧
    CarAds.runOps [CarAds.FeedOp.push ⟨"a", "x", "s", "t"⟩,
        CarAds.FeedOp.poll [⟨some "b", "y", "s", "t"⟩]] <:+
      CarAds.acceptedHistory [] [CarAds.FeedOp.push ⟨"a", "x", "s", "t"⟩,
        CarAds.FeedOp.poll [⟨some "b", "y", "s", "t"⟩]] :=
  ⟨by decide, (C1_dedup_first_seen_order _ (by decide)).1,
    (C1_dedup_first_seen_order _ (by decide)).2⟩

/-- Claim C3, counterexample: the claim as stated fails on the code.
Immediately after the synchronous (pre-network) part of `handleViewClick`
on an ad with view count 5, a listener read still shows 5, not the
optimistic 6: only the flash counter is incremented before the round-trip;
the view count is written only after the server responds. -/
theorem C3_no_optimistic_view_count_counterexample :
    CarAds.adViewCount
        (CarAds.handleViewClickStart CarAds.c3State CarAds.c3Ad) 1 =
      some 5 ∧ (some 5 : Option Nat) ≠ some (5 + 1) :=
  ⟨rfl, by decide⟩

/-- Claim C3, amended: the synchronous part of `handleViewClick` increments
only the per-entity flash counter and leaves the ads list (hence every view
count) unchanged; when the server then confirms with an authoritative
count `n`, that value replaces the local value outright, for every `n` —
in particular even when `n` is lower than any local guess. -/
theorem C3_flash_then_server_wins (s : CarAds.ViewState) (ad : CarAds.Ad)
    (n c : Nat) (hc : CarAds.adViewCount s ad.id = some c) :
    CarAds.flashRead (CarAds.handleViewClickStart s ad) ad.id =
      CarAds.flashRead s ad.id + 1 ∧
    (CarAds.handleViewClickStart s ad).ads = s.ads ∧
    CarAds.adViewCount
        (CarAds.handleViewClickResolve (CarAds.handleViewClickStart s ad) ad
          (CarAds.PostViewResult.ok (some n))) ad.id = some n := by
  refine ⟨?_, rfl, ?_⟩
  · simp [CarAds.flashRead, CarAds.handleViewClickStart]
  · unfold CarAds.adViewCount at hc ⊢
    unfold CarAds.handleViewClickResolve CarAds.handleViewClickStart
    simp only [List.find?_map]
    have hpf : ((fun x => decide (x.id = ad.id)) ∘ fun x =>
        if x.id = ad.id then
          { x with viewCount := (some n).getD (ad.viewCount + 1) }
        else x) = fun x : CarAds.Ad => decide (x.id = ad.id) := by
      funext x
      by_cases hx : x.id = ad.id <;> simp [hx]
    rw [hpf]
    rcases Option.map_eq_some'.1 hc with ⟨a, ha, hav⟩
    have hpa : a.id = ad.id := by
      have := List.find?_some ha
      rwa [decide_eq_true_eq] at this
    rw [ha]
    simp [hpa]

/-- Witness for C3 at the concrete state `c3State`. -/
theorem C3_flash_then_server_wins_witness :
    CarAds.adViewCount CarAds.c3State CarAds.c3Ad.id = some 5 ∧
    (CarAds.flashRead
        (CarAds.handleViewClickStart CarAds.c3State CarAds.c3Ad)
        CarAds.c3Ad.id =
      CarAds.flashRead CarAds.c3State CarAds.c3Ad.id + 1 ∧
    (CarAds.handleViewClickStart CarAds.c3State CarAds.c3Ad).ads =
      CarAds.c3State.ads ∧
    CarAds.adViewCount
        (CarAds.handleViewClickResolve
          (CarAds.handleViewClickStart CarAds.c3State CarAds.c3Ad)
          CarAds.c3Ad (CarAds.PostViewResult.ok (some 2)))
        CarAds.c3Ad.id = some 2) :=
  ⟨rfl, C3_flash_then_server_wins CarAds.c3State CarAds.c3Ad 2 5 rfl⟩

/-- Claim C4: the code violates the stop/teardown requirement.  Evaluating
the code at the failing input: polling active with an empty buffer, the
effect cleanup (`unsub?.()` and `stopTelegramPolling()`) runs, and a poll
fetch already in flight then resolves with one new message — the resolve
handler calls `setTelegramMsgs` with no liveness check, so the buffer is
mutated after stop, where the claim requires it unchanged. -/
theorem C4_late_fetch_mutates_after_stop :
    (CarAds.pollFetchResolve (CarAds.stopModule CarAds.c4Start)
        [CarAds.c4Raw]).telegramMsgs ≠ CarAds.c4Start.telegramMsgs ∧
    (CarAds.pollFetchResolve (CarAds.stopModule CarAds.c4Start)
        [CarAds.c4Raw]).telegramMsgs =
      [{ id := "m1", text := "new", senderName := "bob", sentAt := "t2" }] := by
  constructor
  · decide
  · decide

/-- Claim C7: when the view-increment POST fails, the empty `catch`
swallows the error and performs no rollback: the state after the failure
is exactly the state immediately after the optimistic update — the ads
list equals the original and the flash counter keeps its incremented
value. -/
theorem C7_failure_swallowed_no_rollback (s : CarAds.ViewState)
    (ad : CarAds.Ad) :
    CarAds.handleViewClickResolve (CarAds.handleViewClickStart s ad) ad
        CarAds.PostViewResult.failed = CarAds.handleViewClickStart s ad ∧
    (CarAds.handleViewClickResolve (CarAds.handleViewClickStart s ad) ad
        CarAds.PostViewResult.failed).ads = s.ads ∧
    CarAds.flashRead
        (CarAds.handleViewClickResolve (CarAds.handleViewClickStart s ad) ad
          CarAds.PostViewResult.failed) ad.id =
      CarAds.flashRead s ad.id + 1 := by
  refine ⟨rfl, rfl, ?_⟩
  simp [CarAds.flashRead, CarAds.handleViewClickResolve,
    CarAds.handleViewClickStart]

/-- Claim C5: when the push handshake fails (the catch branch) polling is
started, and when an established connection reports closure (`conn.onclose`)
polling is started immediately by the close handler itself; once active,
the polling timer persists across any further events other than a
successful handshake or the teardown, so polling continues until stop.
A push failure only ever starts polling — it is never fatal. -/
theorem C5_fallback_to_polling (s t : CarAds.TransportState)
    (evs : List CarAds.TransportEvent) (ht : t.pollTimer = true)
    (hevs : ∀ e ∈ evs, e ≠ CarAds.TransportEvent.connectOk ∧
      e ≠ CarAds.TransportEvent.cleanup) :
    (CarAds.transportStep s CarAds.TransportEvent.connectFailed).pollTimer =
      true ∧
    (CarAds.transportStep s CarAds.TransportEvent.connClosed).pollTimer =
      true ∧
    (evs.foldl CarAds.transportStep t).pollTimer = true := by
  refine ⟨?_, ?_, CarAds.polling_persists evs t ht hevs⟩
  · by_cases h : s.pollTimer = true <;>
      simp [CarAds.transportStep, CarAds.startTelegramPolling, h]
  · by_cases h : s.pollTimer = true <;>
      simp [CarAds.transportStep, CarAds.startTelegramPolling, h]

/-- Witness for C5 at a concrete state and event trace. -/
theorem C5_fallback_to_polling_witness :
    ((⟨true, false⟩ : CarAds.TransportState).pollTimer = true ∧
      (∀ e ∈ [CarAds.TransportEvent.pollTick,
          CarAds.TransportEvent.connClosed],
        e ≠ CarAds.TransportEvent.connectOk ∧
        e ≠ CarAds.TransportEvent.cleanup)) ∧
    ((CarAds.transportStep ⟨false, false⟩
        CarAds.TransportEvent.connectFailed).pollTimer = true ∧
      (CarAds.transportStep ⟨false, false⟩
        CarAds.TransportEvent.connClosed).pollTimer = true ∧
      ([CarAds.TransportEvent.pollTick,
          CarAds.TransportEvent.connClosed].foldl CarAds.transportStep
        ⟨true, false⟩).pollTimer = true) :=
  ⟨⟨by decide, by decide⟩,
    C5_fallback_to_polling ⟨false, false⟩ ⟨true, false⟩ _ (by decide)
      (by decide)⟩

/-- Claim C6, counterexample: the claim as stated fails on the code.  A
push message arriving without a server id is given the id
`${Date.now()}-${Math.random()}` — for the concrete payload `c6PushNoId`
at time 100 with random suffix "0.5" the synthesized id is "100-0.5",
which is not the timestamp+sender+content composite "t1-alice-hello" the
claim prescribes for every id-less incoming message. -/
theorem C6_push_synth_counterexample :
    CarAds.pushSynthId 100 "0.5" CarAds.c6PushNoId = "100-0.5" ∧
    CarAds.c6PushNoId.id = none ∧
    "100-0.5" ≠ CarAds.c6PushNoId.sentAt ++ "-" ++
      CarAds.c6PushNoId.senderName ++ "-" ++
      CarAds.slice10 CarAds.c6PushNoId.text := by
  refine ⟨by decide, rfl, by decide⟩

/-- Claim C6, amended: identity is decided by id, not content — two
messages with identical sender, text and timestamp but distinct ids are
both retained by consecutive push appends; a poll-path message whose raw id
is absent (or the falsy empty string) synthesizes the composite id
`sentAt-senderName-text.slice(0,10)`; a push-path message whose id is
absent synthesizes `now-random` from the clock and a random number, not
the content composite. -/
theorem C6_identity_by_id_not_content (prev : List CarAds.TelegramMsg)
    (m1 m2 : CarAds.TelegramMsg) (_hcap : prev.length ≤ CarAds.CAP)
    (_hsender : m1.senderName = m2.senderName) (_htext : m1.text = m2.text)
    (_hsent : m1.sentAt = m2.sentAt) (hid : m1.id ≠ m2.id)
    (h1 : m1.id ∉ prev.map (·.id)) (h2 : m2.id ∉ prev.map (·.id)) :
    m1 ∈ CarAds.pushUpdate (CarAds.pushUpdate prev m1) m2 ∧
    m2 ∈ CarAds.pushUpdate (CarAds.pushUpdate prev m1) m2 ∧
    (∀ m : CarAds.RawPollMsg, m.id = none ∨ m.id = some "" →
      CarAds.pollSynthId m = m.sentAt ++ "-" ++ m.senderName ++ "-" ++
        CarAds.slice10 m.text) ∧
    (∀ (now : Nat) (rand : String) (p : CarAds.RawPushMsg), p.id = none →
      CarAds.pushSynthId now rand p = toString now ++ "-" ++ rand) := by
  have hCAP : CarAds.CAP = 200 := rfl
  have hb1 : CarAds.pushUpdate prev m1 =
      prev.drop ((prev.length + 1) - CarAds.CAP) ++ [m1] :=
    CarAds.pushUpdate_fresh prev m1 h1
  have hm2notin : m2.id ∉ (CarAds.pushUpdate prev m1).map (·.id) := by
    rw [hb1]
    intro hmem
    rw [List.map_append, List.mem_append] at hmem
    rcases hmem with hmem | hmem
    · rcases List.mem_map.1 hmem with ⟨x, hx, he⟩
      exact h2 (List.mem_map.2 ⟨x, List.mem_of_mem_drop hx, he⟩)
    · simp only [List.map_cons, List.map_nil, List.mem_singleton] at hmem
      exact hid hmem.symm
  have hb2 : CarAds.pushUpdate (CarAds.pushUpdate prev m1) m2 =
      (CarAds.pushUpdate prev m1).drop
        (((CarAds.pushUpdate prev m1).length + 1) - CarAds.CAP) ++ [m2] :=
    CarAds.pushUpdate_fresh _ m2 hm2notin
  have hlen1 : (CarAds.pushUpdate prev m1).length =
      prev.length - ((prev.length + 1) - CarAds.CAP) + 1 := by
    rw [hb1]
    simp [List.length_drop]
  refine ⟨?_, ?_, ?_, ?_⟩
  · rw [hb2, hlen1, hb1]
    apply List.mem_append_left
    rw [List.drop_append_of_le_length (by
      rw [List.length_drop]
      omega)]
    exact List.mem_append_right _ (List.mem_singleton.2 rfl)
  · rw [hb2]
    exact List.mem_append_right _ (List.mem_singleton.2 rfl)
  · intro m hm
    rcases hm with hm | hm <;>
      simp [CarAds.pollSynthId, CarAds.pollFallbackId, hm]
  · intro now rand p hp
    simp [CarAds.pushSynthId, hp]

/-- Witness for C6: two content-identical messages with distinct ids pushed
onto the empty buffer. -/
theorem C6_identity_by_id_witness :
    (([] : List CarAds.TelegramMsg).length ≤ CarAds.CAP ∧
      ("a" : String) ≠ "b" ∧
      ("a" : String) ∉ ([] : List CarAds.TelegramMsg).map (·.id) ∧
      ("b" : String) ∉ ([] : List CarAds.TelegramMsg).map (·.id)) ∧
    CarAds.TelegramMsg.mk "a" "x" "s" "t" ∈
      CarAds.pushUpdate
        (CarAds.pushUpdate [] (CarAds.TelegramMsg.mk "a" "x" "s" "t"))
        (CarAds.TelegramMsg.mk "b" "x" "s" "t") ∧
    CarAds.TelegramMsg.mk "b" "x" "s" "t" ∈
      CarAds.pushUpdate
        (CarAds.pushUpdate [] (CarAds.TelegramMsg.mk "a" "x" "s" "t"))
        (CarAds.TelegramMsg.mk "b" "x" "s" "t") :=
  ⟨⟨by decide, by decide, by decide, by decide⟩,
    (C6_identity_by_id_not_content [] (CarAds.TelegramMsg.mk "a" "x" "s" "t")
      (CarAds.TelegramMsg.mk "b" "x" "s" "t") (by decide) rfl rfl rfl
      (by decide) (by decide) (by decide)).1,
    (C6_identity_by_id_not_content [] (CarAds.TelegramMsg.mk "a" "x" "s" "t")
      (CarAds.TelegramMsg.mk "b" "x" "s" "t") (by decide) rfl rfl rfl
      (by decide) (by decide) (by decide)).2.1⟩

/-- Claim C8: starting polling is idempotent — when a timer handle exists,
`startTelegramPolling` returns without change — and along any start/stop
sequence from the initial state the number of live intervals equals 1
exactly when the handle is set, hence at most one polling timer is ever
active. -/
theorem C8_idempotent_polling_start (s : CarAds.TimerState)
    (ops : List CarAds.TimerOp) (h : s.pollTimer = true) :
    CarAds.startPollingTimers s = s ∧
    CarAds.timerInv
      (ops.foldl CarAds.timerStep ⟨false, 0⟩) ∧
    (ops.foldl CarAds.timerStep ⟨false, 0⟩).liveTimers ≤ 1 := by
  have hinv : ∀ (l : List CarAds.TimerOp) (t : CarAds.TimerState),
      CarAds.timerInv t → CarAds.timerInv (l.foldl CarAds.timerStep t) := by
    intro l
    induction l with
    | nil => intro t ht; simpa using ht
    | cons op rest ih =>
        intro t ht
        rw [List.foldl_cons]
        exact ih _ (CarAds.timerInv_step t op ht)
  have hfold := hinv ops ⟨false, 0⟩ (by simp [CarAds.timerInv])
  refine ⟨?_, hfold, ?_⟩
  · unfold CarAds.startPollingTimers
    rw [if_pos h]
  · unfold CarAds.timerInv at hfold
    rw [hfold]
    split <;> simp

/-- Witness for C8 at a concrete state and operation list. -/
theorem C8_idempotent_polling_start_witness :
    ((⟨true, 1⟩ : CarAds.TimerState).pollTimer = true) ∧
    (CarAds.startPollingTimers ⟨true, 1⟩ = ⟨true, 1⟩ ∧
      CarAds.timerInv
        ([CarAds.TimerOp.start, CarAds.TimerOp.start,
            CarAds.TimerOp.stop].foldl CarAds.timerStep ⟨false, 0⟩) ∧
      ([CarAds.TimerOp.start, CarAds.TimerOp.start,
          CarAds.TimerOp.stop].foldl CarAds.timerStep
        ⟨false, 0⟩).liveTimers ≤ 1) :=
  ⟨by decide,
    C8_idempotent_polling_start ⟨true, 1⟩
      [CarAds.TimerOp.start, CarAds.TimerOp.start, CarAds.TimerOp.stop]
      (by decide)⟩

/-- Claim C9: an append whose candidates all carry ids already in the
buffer accepts nothing and leaves the buffer unchanged — the poll tick
computes an empty `newMsgs` and returns `prev` itself (so no state update
is signalled to the Renderer), and the push updater likewise returns
`prev`. -/
theorem C9_all_duplicates_noop (prev : List CarAds.TelegramMsg)
    (list : List CarAds.RawPollMsg) (msg : CarAds.TelegramMsg)
    (hlist : ∀ m ∈ list, CarAds.pollSynthId m ∈ prev.map (·.id))
    (hmsg : msg.id ∈ prev.map (·.id)) :
    CarAds.pollNewMsgs prev list = [] ∧
    CarAds.pollTickUpdate prev list = prev ∧
    CarAds.pushUpdate prev msg = prev := by
  have hfil : (list.filter (fun m =>
      ¬ (prev.map (·.id)).contains (CarAds.pollSynthId m))) = [] := by
    rw [List.filter_eq_nil_iff]
    intro m hm
    simp only [decide_eq_true_eq, not_not]
    exact List.elem_iff.2 (hlist m hm)
  have hnew : CarAds.pollNewMsgs prev list = [] := by
    show (list.filter (fun m =>
        ¬ (prev.map (·.id)).contains (CarAds.pollSynthId m))).map
      CarAds.toPollMsg = []
    rw [hfil]
    rfl
  refine ⟨hnew, ?_, ?_⟩
  · unfold CarAds.pollTickUpdate
    rw [if_pos (by rw [hnew]; rfl)]
  · unfold CarAds.pushUpdate
    rw [if_pos ?hc]
    case hc =>
      rcases List.mem_map.1 hmsg with ⟨x, hx, he⟩
      exact List.any_eq_true.2 ⟨x, hx, by simp [he]⟩

/-- Witness for C9: a poll batch and a push message whose ids are all
already buffered. -/
theorem C9_all_duplicates_noop_witness :
    ((∀ m ∈ [CarAds.RawPollMsg.mk (some "a") "y" "s2" "t2"],
        CarAds.pollSynthId m ∈
          [CarAds.TelegramMsg.mk "a" "x" "s" "t"].map (·.id)) ∧
      ("a" : String) ∈ [CarAds.TelegramMsg.mk "a" "x" "s" "t"].map (·.id)) ∧
    (CarAds.pollNewMsgs [CarAds.TelegramMsg.mk "a" "x" "s" "t"]
        [CarAds.RawPollMsg.mk (some "a") "y" "s2" "t2"] = [] ∧
      CarAds.pollTickUpdate [CarAds.TelegramMsg.mk "a" "x" "s" "t"]
        [CarAds.RawPollMsg.mk (some "a") "y" "s2" "t2"] =
        [CarAds.TelegramMsg.mk "a" "x" "s" "t"] ∧
      CarAds.pushUpdate [CarAds.TelegramMsg.mk "a" "x" "s" "t"]
        (CarAds.TelegramMsg.mk "a" "z" "s3" "t3") =
        [CarAds.TelegramMsg.mk "a" "x" "s" "t"]) :=
  ⟨⟨by decide, by decide⟩,
    C9_all_duplicates_noop [CarAds.TelegramMsg.mk "a" "x" "s" "t"]
      [CarAds.RawPollMsg.mk (some "a") "y" "s2" "t2"]
      (CarAds.TelegramMsg.mk "a" "z" "s3" "t3") (by decide) (by decide)⟩

/-- Claim C10, counterexample: the two poll-tick updaters are not
equivalent.  With a non-empty prior buffer and an empty fetched list, the
part_000 diff-and-append updater returns the prior buffer unchanged while
the page.tsx rebuild updater returns the empty list. -/
theorem C10_not_equivalent_counterexample :
    CarAds.pollTickUpdatePage CarAds.c10Prev [] ≠
      CarAds.pollTickUpdate CarAds.c10Prev [] := by
  decide

/-- Claim C10, amended: the page.tsx rebuild updater discards the prior
buffer and labels messages with index-dependent ids, so the two variants
disagree on non-empty prior buffers and on ids; what does hold is that
from an empty prior buffer the two updaters produce the same messages up
to identity — equal text/sender/timestamp sequences (both keep the last
200 of the mapped fetch list). -/
theorem C10_content_equal_from_empty (list : List CarAds.RawPollMsg) :
    (CarAds.pollTickUpdatePage [] list).map CarAds.msgContent =
      (CarAds.pollTickUpdate [] list).map CarAds.msgContent := by
  unfold CarAds.pollTickUpdatePage
  rw [CarAds.pollTickUpdate_nil]
  rw [List.map_drop, List.map_drop]
  have e1 : (list.enum.map CarAds.toPageMsg).map CarAds.msgContent =
      list.map (fun m => (m.text, m.senderName, m.sentAt)) := by
    rw [List.map_map]
    exact CarAds.enum_map_snd_comp list
      (fun m => (m.text, m.senderName, m.sentAt))
  have e2 : (list.map CarAds.toPollMsg).map CarAds.msgContent =
      list.map (fun m => (m.text, m.senderName, m.sentAt)) := by
    rw [List.map_map]
    rfl
  have hl1 : (list.enum.map CarAds.toPageMsg).length = list.length := by
    rw [List.length_map, List.enum_length]
  rw [hl1, e1, e2]
